import Mathlib

set_option maxRecDepth 8000

/-!
Verification development for the InsightPulse agent core
(`agent.py`, `config.py` of Swarno-Coder/Insight-Pulse).

The LLM collaborators (code generator, code fixer, report summarizer) and
the sandbox executor (`CodeExecutor.execute`) are external to the verified
core; they are modelled as oracle parameters.  Exceptions raised by an
oracle are modelled with `Except`.  All definitions below are translated
from the Python source; the few claim-side definitions are clearly marked.
-/

/-- One execution attempt's result dict, as produced by `CodeExecutor.execute`
and consumed by `agent.py` (keys `success`, `output`, `error`, `figures`,
`context`).  Figure handles and context snapshots are opaque. -/
structure ExecutionResult where
  success : Bool
  output : String
  error : String
  figures : List Nat
  context : List (String × String)
deriving DecidableEq

/-- Instrumented outcome of `DataScienceAgent.execute_with_retry`:
`result` is the value the Python function returns; `execCalls` counts calls
to `executor.execute`, `fixCalls` counts code-fixer LLM calls, and
`finalCode` is the value of the local variable `code` at the final attempt. -/
structure RetryTrace where
  result : ExecutionResult
  execCalls : Nat
  fixCalls : Nat
  finalCode : String
deriving DecidableEq

/-- One entry of `self.conversation_history`: `{'user': ..., 'agent': ...}`. -/
structure Turn where
  user : String
  agent : String
deriving DecidableEq

/-- The agent's mutable state: `self.df` (a dataset reference, `none` before
`load_data`) and `self.conversation_history`. -/
structure AgentState where
  df : Option Nat
  conversation_history : List Turn
deriving DecidableEq

/-- Values stored in the caller-facing result dict of `process_instruction`. -/
inductive Val where
  | b : Bool → Val
  | s : String → Val
  | figs : List Nat → Val
  | ctx : List (String × String) → Val
deriving DecidableEq

/-- Call counters instrumenting one `process_instruction` run: generator LLM
calls, `executor.execute` calls, fixer LLM calls, report-summarizer calls. -/
structure CallStats where
  genCalls : Nat
  execCalls : Nat
  fixCalls : Nat
  reportCalls : Nat
deriving DecidableEq

/-- `config.py`: the configuration fields consumed from the environment that
concern code execution (`MAX_RETRIES`, `TIMEOUT`). -/
structure Config where
  MAX_RETRIES : Nat
  TIMEOUT : Nat
deriving DecidableEq

/-- `config.py` lines 22-23: `MAX_RETRIES = int(os.getenv('MAX_RETRIES', 3))`,
`TIMEOUT = int(os.getenv('TIMEOUT', 60))`.  The environment supplies already
parsed numbers here. -/
def Config.ofEnv (envMaxRetries envTimeout : Option Nat) : Config :=
  { MAX_RETRIES := envMaxRetries.getD 3, TIMEOUT := envTimeout.getD 60 }

/-- Decompose a character list at the first occurrence of `sep`:
`some (a, b)` with `l = a ++ sep ++ b` and `a` shortest, `none` when `sep`
does not occur.  This models Python's leftmost substring search. -/
def splitFirst (sep : List Char) : List Char → Option (List Char × List Char)
  | [] => if sep.isPrefixOf ([] : List Char) then some ([], []) else none
  | c :: cs =>
    if sep.isPrefixOf (c :: cs) then some ([], (c :: cs).drop sep.length)
    else (splitFirst sep cs).map fun p => (c :: p.1, p.2)

/-- Element `[0]` of Python's `l.split(sep)`: the segment before the first
occurrence of `sep`, or all of `l` when `sep` does not occur. -/
def pySplitIdx0 (sep l : List Char) : List Char :=
  match splitFirst sep l with
  | none => l
  | some p => p.1

/-- Element `[1]` of Python's `l.split(sep)`: the segment between the first
and second occurrences of `sep` (to the end when there is no second one).
Only evaluated under a guard ensuring at least one occurrence, so the
`none` case is dead code. -/
def pySplitIdx1 (sep l : List Char) : List Char :=
  match splitFirst sep l with
  | none => []
  | some p => pySplitIdx0 sep p.2

/-- Python `str.strip()` whitespace: space, tab, newline, carriage return,
vertical tab, form feed. -/
def isPySpace (c : Char) : Bool :=
  c == Char.ofNat 32 || c == Char.ofNat 9 || c == Char.ofNat 10 ||
  c == Char.ofNat 13 || c == Char.ofNat 11 || c == Char.ofNat 12

/-- Python `str.strip()` on a character list. -/
def stripL (l : List Char) : List Char :=
  ((l.dropWhile isPySpace).reverse.dropWhile isPySpace).reverse

/-- The python-tagged fence marker searched by `agent.py`. -/
def pyTag : List Char := "```python".data

/-- The untagged fence marker searched by `agent.py`. -/
def fence : List Char := "```".data

/-- The markdown extraction of `agent.py` lines 114-118 and 164-168:
`if '```python' in code: code = code.split('```python')[1].split('```')[0].strip()`
`elif '```' in code: code = code.split('```')[1].split('```')[0].strip()`.
Python's `in` is the existence of an occurrence, i.e. `(splitFirst _ _).isSome`. -/
def extractCodeL (l : List Char) : List Char :=
  if (splitFirst pyTag l).isSome then
    stripL (pySplitIdx0 fence (pySplitIdx1 pyTag l))
  else if (splitFirst fence l).isSome then
    stripL (pySplitIdx0 fence (pySplitIdx1 fence l))
  else l

/-- String-level wrapper of the markdown code extraction. -/
def extract_code (s : String) : String := ⟨extractCodeL s.data⟩

/-- Claim-side definition (from the spec's words, not the source): the text
after the first occurrence of `sep` (only used when `sep` occurs). -/
def afterFirstOcc (sep l : List Char) : List Char :=
  match splitFirst sep l with
  | none => []
  | some p => p.2

/-- Claim-side definition (from the spec's words, not the source): the text
before the first occurrence of `sep`, or all of `l` when `sep` is absent. -/
def beforeFirstOcc (sep l : List Char) : List Char :=
  match splitFirst sep l with
  | none => l
  | some p => p.1

/-- Claim-side definition following C5's words: first python-tagged fenced
block content (text after the first `pyTag` up to the next `fence`),
else first fenced block content, else the raw text. -/
def extractCodeClaim (l : List Char) : List Char :=
  if (splitFirst pyTag l).isSome then
    stripL (beforeFirstOcc fence (afterFirstOcc pyTag l))
  else if (splitFirst fence l).isSome then
    stripL (beforeFirstOcc fence (afterFirstOcc fence l))
  else l

/-- Amended claim-side definition: in the python-tagged case the block
content is additionally truncated at a second occurrence of the python-tag
marker before looking for the closing fence (this is what the double
`split` of the source does); the other two cases are as in the claim. -/
def extractCodeAmended (l : List Char) : List Char :=
  if (splitFirst pyTag l).isSome then
    stripL (beforeFirstOcc fence (beforeFirstOcc pyTag (afterFirstOcc pyTag l)))
  else if (splitFirst fence l).isSome then
    stripL (beforeFirstOcc fence (afterFirstOcc fence l))
  else l

/-- The loop of `execute_with_retry` (agent.py lines 133-170), instrumented.
`fuel` is the number of attempts still allowed (`max_retries - attempt`);
the Python guard `attempt < max_retries - 1` is `0 < fuel` after peeling one.
`ex i c` is the executor's result for the `i`-th execute call on code `c`
(the executor is stateful, hence the call index); `fx c e` is the fixer
LLM's raw response for failing code `c` and error `e`.  The `fuel = 0` case
is never reached from `execute_with_retry` (it enters with `fuel ≥ 1` and
recursion keeps `fuel ≥ 1`). -/
def retryRun (ex : Nat → String → ExecutionResult) (fx : String → String → String) :
    Nat → Nat → String → RetryTrace
  | 0, attempt, code => ⟨ex attempt code, 1, 0, code⟩
  | fuel + 1, attempt, code =>
    if (ex attempt code).success then ⟨ex attempt code, 1, 0, code⟩
    else if 0 < fuel then
      let t := retryRun ex fx fuel (attempt + 1)
        (extract_code (fx code (ex attempt code).error))
      ⟨t.result, t.execCalls + 1, t.fixCalls + 1, t.finalCode⟩
    else ⟨ex attempt code, 1, 0, code⟩

/-- `DataScienceAgent.execute_with_retry(code, max_retries)`.  With
`max_retries = 0` the Python `for` body never runs and the trailing
`return result` raises `UnboundLocalError`, modelled as `none`. -/
def execute_with_retry (ex : Nat → String → ExecutionResult)
    (fx : String → String → String) (code : String) (maxRetries : Nat) :
    Option RetryTrace :=
  if maxRetries = 0 then none else some (retryRun ex fx maxRetries 0 code)

/-- The dict actually returned by `execute_with_retry`. -/
def execute_with_retry_result (ex : Nat → String → ExecutionResult)
    (fx : String → String → String) (code : String) (maxRetries : Nat) :
    Option ExecutionResult :=
  (execute_with_retry ex fx code maxRetries).map (·.result)

/-- Number of `executor.execute` calls made by one `execute_with_retry` run. -/
def execCallsOpt : Option RetryTrace → Nat
  | none => 0
  | some t => t.execCalls

/-- Number of code-fixer LLM calls made by one `execute_with_retry` run. -/
def fixCallsOpt : Option RetryTrace → Nat
  | none => 0
  | some t => t.fixCalls

/-- agent.py lines 100-103: the slice `self.conversation_history[-3:]` that
is rendered into the generation prompt's history section. -/
def history_window (h : List Turn) : List Turn := h.drop (h.length - 3)

/-- Python slice `s[:n]`. -/
def takeChars (n : Nat) (s : String) : String := ⟨s.data.take n⟩

/-- One line of the prompt history:
`f"User: {h['user']}\nAgent: {h['agent'][:200]}..."`. -/
def renderTurn (t : Turn) : String :=
  "User: " ++ t.user ++ "\nAgent: " ++ takeChars 200 t.agent ++ "..."

/-- agent.py lines 100-103: the `history` prompt variable. -/
def history_text (h : List Turn) : String :=
  if h = [] then "No previous conversation"
  else String.intercalate "\n" ((history_window h).map renderTurn)

/-- The early-return dict of `process_instruction` when no dataset is loaded
(agent.py lines 226-230): only the keys `success` and `error`. -/
def noDatasetPayload : List (String × Val) :=
  [("success", Val.b false),
   ("error", Val.s "No dataset loaded. Please upload a CSV file first.")]

/-- The `except` dict of `process_instruction` (agent.py lines 260-264):
only the keys `success` and `error`. -/
def agentErrorPayload (e : String) : List (String × Val) :=
  [("success", Val.b false), ("error", Val.s ("Agent error: " ++ e))]

/-- The normal-path return dict of `process_instruction`
(agent.py lines 250-258).  `code` is the local variable bound at line 234;
the rebinding of `code` inside `execute_with_retry` is local to that
function and never reaches this dict. -/
def resultPayload (code : String) (t : RetryTrace) (report : String) :
    List (String × Val) :=
  [("success", Val.b t.result.success),
   ("code", Val.s code),
   ("output", Val.s t.result.output),
   ("error", Val.s t.result.error),
   ("figures", Val.figs t.result.figures),
   ("report", Val.s report),
   ("context", Val.ctx t.result.context)]

/-- `DataScienceAgent.process_instruction` (agent.py lines 216-264).
`gen` is the generator LLM call (raising modelled as `.error`), `fx` the
fixer LLM, `rep` the report-summarizer LLM call (`generate_final_report`).
The `try` block catches generator and summarizer exceptions into the
`Agent error:` dict.  `execute_with_retry` is called with its default
`max_retries = 3`; `retryRun _ _ 3 0 _` is that call (the budget is at
least 1, so the `Option` wrapper is not needed here).  On success the
report is generated (`report = ""` otherwise), then the history is
appended with `report or result.get('error', 'Execution failed')` and the
result dict is returned. -/
def process_instruction (st : AgentState) (ex : Nat → String → ExecutionResult)
    (gen : Except String String) (fx : String → String → String)
    (rep : Except String String) (instruction : String) :
    List (String × Val) × AgentState × CallStats :=
  match st.df with
  | none => (noDatasetPayload, st, ⟨0, 0, 0, 0⟩)
  | some _ =>
    match gen with
    | .error e => (agentErrorPayload e, st, ⟨1, 0, 0, 0⟩)
    | .ok raw =>
      let code := extract_code raw
      let t := retryRun ex fx 3 0 code
      let reportCalls := if t.result.success then 1 else 0
      match (if t.result.success then rep else .ok "") with
      | .error e => (agentErrorPayload e, st, ⟨1, t.execCalls, t.fixCalls, reportCalls⟩)
      | .ok report =>
        (resultPayload code t report,
         { st with conversation_history := st.conversation_history ++
            [⟨instruction, if report = "" then t.result.error else report⟩] },
         ⟨1, t.execCalls, t.fixCalls, reportCalls⟩)

/-- Dict key lookup (first binding wins, as in a Python dict literal with
distinct keys). -/
def getKey (k : String) : List (String × Val) → Option Val
  | [] => none
  | (k', v) :: rest => if k' = k then some v else getKey k rest

/-- Keys of a result dict, in insertion order. -/
def keysOf (l : List (String × Val)) : List String := l.map Prod.fst

/-- The seven fields of the caller-facing result schema named by the spec. -/
def sevenKeys : List String :=
  ["success", "code", "output", "error", "figures", "report", "context"]

/-- A heap of dataframe objects for the aliasing model of `load_data`:
references are indices, a dataframe value is its row list. -/
def readDF (h : List (List String)) (r : Nat) : List String := h.getD r []

/-- `DataScienceAgent.load_data` (agent.py lines 27-37): `self.df = df.copy()`
allocates a fresh object holding the caller's current value, and the
executor context binds `df` to that copy (the library aliases `pd`, `np`,
`plt`, `px`, `go` carry no dataframe references).  Returns the new heap,
the agent's `self.df` reference, and the list of dataframe references in
the executor workspace. -/
def load_data (h : List (List String)) (caller : Nat) :
    List (List String) × Nat × List Nat :=
  (h ++ [readDF h caller], h.length, [h.length])

/-- A sequence of executed code attempts, each an arbitrary heap
transformation (mutating only what it can reach). -/
def runAll (fs : List (List (List String) → List (List String)))
    (h : List (List String)) : List (List String) :=
  fs.foldl (fun acc f => f acc) h

/-- Concrete always-succeeding executor oracle. -/
def exOK : Nat → String → ExecutionResult := fun _ _ => ⟨true, "out", "", [], []⟩

/-- Concrete always-failing executor oracle. -/
def exFail : Nat → String → ExecutionResult := fun _ _ => ⟨false, "", "boom", [], []⟩

/-- Concrete executor oracle failing on the first attempt only. -/
def exFailThenOK : Nat → String → ExecutionResult := fun i _ =>
  if i = 0 then ⟨false, "", "E1", [], []⟩ else ⟨true, "done", "", [], []⟩

/-- Concrete fixer oracle always answering the raw code text `B`. -/
def fxB : String → String → String := fun _ _ => "B"

/-- Concrete input separating the source's extraction from claim C5's
description: overlapping fence markers. -/
def cexC5 : List Char := "```python````python END".data

/-- Decomposition property of the leftmost-occurrence search. -/
theorem splitFirst_eq_append (sep : List Char) :
    ∀ l a b, splitFirst sep l = some (a, b) → l = a ++ sep ++ b := by
  intro l
  induction l with
  | nil =>
    intro a b hab
    simp only [splitFirst] at hab
    split at hab
    · rename_i hp
      have hsep : sep = [] := List.prefix_nil.mp (List.isPrefixOf_iff_prefix.mp hp)
      cases hab
      simp [hsep]
    · cases hab
  | cons c cs ih =>
    intro a b hab
    simp only [splitFirst] at hab
    split at hab
    · rename_i hp
      obtain ⟨t, ht⟩ := List.isPrefixOf_iff_prefix.mp hp
      cases hab
      rw [← ht]
      simp [List.drop_left]
    · rename_i hp
      obtain ⟨p, hp2, hpe⟩ := Option.map_eq_some'.mp hab
      cases hpe
      have := ih p.1 p.2 (by rw [hp2])
      simp [this]

/-- A nonempty pattern never occurs in the part before its first occurrence. -/
theorem splitFirst_none_left (sep : List Char) (hs : sep ≠ []) :
    ∀ l a b, splitFirst sep l = some (a, b) → splitFirst sep a = none := by
  intro l
  induction l with
  | nil =>
    intro a b hab
    simp only [splitFirst] at hab
    split at hab
    · rename_i hp
      exact absurd (List.prefix_nil.mp (List.isPrefixOf_iff_prefix.mp hp)) hs
    · cases hab
  | cons c cs ih =>
    intro a b hab
    simp only [splitFirst] at hab
    split at hab
    · rename_i hp
      cases hab
      simp only [splitFirst]
      rw [if_neg]
      intro hpre
      exact hs (List.prefix_nil.mp (List.isPrefixOf_iff_prefix.mp hpre))
    · rename_i hp
      obtain ⟨p, hp2, hpe⟩ := Option.map_eq_some'.mp hab
      cases hpe
      have hnone := ih p.1 p.2 hp2
      have hcs := splitFirst_eq_append sep cs p.1 p.2 hp2
      simp only [splitFirst]
      rw [if_neg]
      · rw [hnone]
        rfl
      · intro hpre
        apply hp
        have h1 : sep <+: c :: p.1 := List.isPrefixOf_iff_prefix.mp hpre
        have h2 : (c :: p.1) <+: (c :: cs) := by
          rw [hcs]
          exact ⟨sep ++ p.2, by simp⟩
        exact List.isPrefixOf_iff_prefix.mpr (h1.trans h2)

/-- C5 (amended): the extraction is deterministic with the precedence: if the
text contains a python-tagged fence marker, the result is the text after the
first python-tagged marker, truncated at a second python-tagged marker when
one occurs before the closing fence, then truncated at the first untagged
fence marker, stripped; otherwise, if it contains any fence marker, the
result is the content of the first fenced block (stripped); otherwise the
raw text is used unchanged. -/
theorem C5_extraction_amended : ∀ l : List Char, extractCodeL l = extractCodeAmended l := by
  intro l
  unfold extractCodeL extractCodeAmended
  cases hp : splitFirst pyTag l with
  | some p =>
    simp only [hp, Option.isSome_some, if_true]
    simp [pySplitIdx1, pySplitIdx0, afterFirstOcc, beforeFirstOcc, hp]
  | none =>
    simp only [hp, Option.isSome_none, Bool.false_eq_true, if_false]
    cases hf : splitFirst fence l with
    | none => simp [hf]
    | some q =>
      simp only [hf, Option.isSome_some, if_true]
      simp only [pySplitIdx1, pySplitIdx0, afterFirstOcc, beforeFirstOcc, hf]
      congr 1
      cases hq : splitFirst fence q.2 with
      | none => simp [hq]
      | some r =>
        have hnone := splitFirst_none_left fence (by decide) q.2 r.1 r.2 hq
        simp [hq, hnone]

/-- C5 counterexample: on overlapping markers the source's double split does
not return the content of the first python-tagged fenced block as the claim
describes it. -/
theorem C5_counterexample : extractCodeL cexC5 ≠ extractCodeClaim cexC5 := by decide

/-- One-step unfolding of the instrumented retry loop. -/
theorem retryRun_succ (ex : Nat → String → ExecutionResult)
    (fx : String → String → String) (fuel attempt : Nat) (code : String) :
    retryRun ex fx (fuel + 1) attempt code =
      if (ex attempt code).success then ⟨ex attempt code, 1, 0, code⟩
      else if 0 < fuel then
        ⟨(retryRun ex fx fuel (attempt + 1)
            (extract_code (fx code (ex attempt code).error))).result,
         (retryRun ex fx fuel (attempt + 1)
            (extract_code (fx code (ex attempt code).error))).execCalls + 1,
         (retryRun ex fx fuel (attempt + 1)
            (extract_code (fx code (ex attempt code).error))).fixCalls + 1,
         (retryRun ex fx fuel (attempt + 1)
            (extract_code (fx code (ex attempt code).error))).finalCode⟩
      else ⟨ex attempt code, 1, 0, code⟩ := rfl

/-- Budget bound for the instrumented retry loop. -/
theorem retryRun_calls_le (ex : Nat → String → ExecutionResult)
    (fx : String → String → String) :
    ∀ f a c, (retryRun ex fx (f + 1) a c).execCalls ≤ f + 1 ∧
      (retryRun ex fx (f + 1) a c).fixCalls ≤ f := by
  intro f
  induction f with
  | zero =>
    intro a c
    simp only [retryRun]
    split
    · exact ⟨Nat.le_refl 1, Nat.le_refl 0⟩
    · simp
  | succ g ih =>
    intro a c
    simp only [retryRun]
    split
    · exact ⟨by simp, by simp⟩
    · rw [if_pos (Nat.succ_pos g)]
      obtain ⟨h1, h2⟩ := ih (a + 1) (extract_code (fx c (ex a c).error))
      exact ⟨by simpa using Nat.add_le_add_right h1 1,
             by simpa using Nat.add_le_add_right h2 1⟩

/-- C1: for every code string and every configured max_retries value,
execute_with_retry issues at most max_retries execute calls, and with
max_retries = 1 it issues no code-fixer call. -/
theorem C1_retry_budget :
    ∀ (ex : Nat → String → ExecutionResult) (fx : String → String → String)
      (code : String) (maxRetries : Nat),
      execCallsOpt (execute_with_retry ex fx code maxRetries) ≤ maxRetries ∧
      fixCallsOpt (execute_with_retry ex fx code 1) = 0 := by
  intro ex fx code maxRetries
  constructor
  · cases maxRetries with
    | zero => simp [execute_with_retry, execCallsOpt]
    | succ n =>
      simp only [execute_with_retry, if_neg (Nat.succ_ne_zero n), execCallsOpt]
      exact (retryRun_calls_le ex fx n 0 code).1
  · have h := (retryRun_calls_le ex fx 0 0 code).2
    simp only [execute_with_retry, fixCallsOpt, if_neg one_ne_zero]
    exact Nat.le_zero.mp h

/-- All-fail behaviour of the instrumented retry loop. -/
theorem retryRun_all_fail (ex : Nat → String → ExecutionResult)
    (fx : String → String → String)
    (hf : ∀ i c, (ex i c).success = false) :
    ∀ f a c, (retryRun ex fx (f + 1) a c).execCalls = f + 1 ∧
      (retryRun ex fx (f + 1) a c).result
        = ex (a + f) ((retryRun ex fx (f + 1) a c).finalCode) := by
  intro f
  induction f with
  | zero =>
    intro a c
    simp [retryRun, hf]
  | succ g ih =>
    intro a c
    rw [retryRun_succ ex fx (g + 1) a c]
    rw [if_neg (by simp [hf])]
    rw [if_pos (Nat.succ_pos g)]
    obtain ⟨h1, h2⟩ := ih (a + 1) (extract_code (fx c (ex a c).error))
    refine ⟨by simpa using h1, ?_⟩
    have hidx : a + 1 + g = a + (g + 1) := by omega
    simpa [hidx] using h2

/-- C2: if every execution attempt fails, execute_with_retry makes exactly
max_retries execute calls (a further code variant is never executed) and
returns the final attempt's ExecutionResult unmodified. -/
theorem C2_exhausted :
    ∀ (ex : Nat → String → ExecutionResult) (fx : String → String → String)
      (code : String) (n : Nat),
      (∀ i c, (ex i c).success = false) →
      ∃ t, execute_with_retry ex fx code (n + 1) = some t ∧
        t.execCalls = n + 1 ∧ t.result = ex n t.finalCode := by
  intro ex fx code n hf
  refine ⟨retryRun ex fx (n + 1) 0 code, by simp [execute_with_retry], ?_, ?_⟩
  · exact (retryRun_all_fail ex fx hf n 0 code).1
  · simpa using (retryRun_all_fail ex fx hf n 0 code).2

/-- Witness for C2 at the all-failing executor, fixer fxB, budget 3. -/
theorem C2_exhausted_witness :
    ∃ t, execute_with_retry exFail fxB "A" 3 = some t ∧
      t.execCalls = 3 ∧ t.result = exFail 2 t.finalCode :=
  C2_exhausted exFail fxB "A" 2 (fun _ _ => rfl)

/-- C3: the claim fails on the code.  With a successful execution and a
report summarizer that raises, process_instruction's generic except clause
returns the Agent-error dict with success=false, discarding the successful
ExecutionResult. -/
theorem C3_report_failure_drops_success :
    (exOK 0 "x").success = true ∧
    (process_instruction ⟨some 0, []⟩ exOK (.ok "print(1)") fxB
        (.error "summarizer down") "i").1
      = agentErrorPayload "summarizer down" ∧
    getKey "success" (agentErrorPayload "summarizer down") = some (Val.b false) := by
  refine ⟨rfl, rfl, rfl⟩

/-- C4 counterexample: with a first attempt failing and a repaired second
attempt succeeding, the last attempted code is "B" but the payload's code
field is the originally generated "A". -/
theorem C4_counterexample :
    (retryRun exFailThenOK fxB 3 0 (extract_code "A")).finalCode = "B" ∧
    getKey "code" (process_instruction ⟨some 0, []⟩ exFailThenOK (.ok "A") fxB
        (.ok "rep") "i").1 = some (Val.s "A") ∧
    ("A" : String) ≠ "B" := by
  refine ⟨rfl, rfl, by decide⟩

/-- C4 (amended): for every instruction whose processing ends in the terminal
Succeeded or Exhausted state (and whose report step does not raise), the code
field of the caller-facing payload equals the originally generated (extracted)
code of the first execution attempt, even when repairs occurred. -/
theorem C4_code_field_is_generated_code :
    ∀ (dfRef : Nat) (hist : List Turn) (ex : Nat → String → ExecutionResult)
      (fx : String → String → String) (raw r instruction : String),
      getKey "code" (process_instruction ⟨some dfRef, hist⟩ ex (.ok raw) fx
          (.ok r) instruction).1 = some (Val.s (extract_code raw)) := by
  intro dfRef hist ex fx raw r instruction
  simp only [process_instruction]
  cases hs : (retryRun ex fx 3 0 (extract_code raw)).result.success <;>
    simp [hs, resultPayload, getKey]

/-- C6: processing an instruction with no dataset loaded returns immediately
with success=false and a fixed non-empty error, making no generator and no
executor call. -/
theorem C6_no_dataset :
    ∀ (hist : List Turn) (ex : Nat → String → ExecutionResult)
      (gen : Except String String) (fx : String → String → String)
      (rep : Except String String) (instruction : String),
      process_instruction ⟨none, hist⟩ ex gen fx rep instruction
        = (noDatasetPayload, ⟨none, hist⟩, ⟨0, 0, 0, 0⟩) ∧
      getKey "success" noDatasetPayload = some (Val.b false) ∧
      getKey "error" noDatasetPayload
        = some (Val.s "No dataset loaded. Please upload a CSV file first.") ∧
      "No dataset loaded. Please upload a CSV file first." ≠ "" := by
  intro hist ex gen fx rep instruction
  refine ⟨rfl, rfl, rfl, by decide⟩

/-- C7: the claim fails on the code.  Config defaults are 3 and 60, but
process_instruction calls execute_with_retry with its hardcoded default of 3
attempts: with MAX_RETRIES configured to 5 and every attempt failing, exactly
3 execute calls are made, not 5. -/
theorem C7_config_not_consumed :
    (Config.ofEnv none none).MAX_RETRIES = 3 ∧
    (Config.ofEnv none none).TIMEOUT = 60 ∧
    (Config.ofEnv (some 5) none).MAX_RETRIES = 5 ∧
    (process_instruction ⟨some 0, []⟩ exFail (.ok "A") fxB (.ok "r") "i").2.2.execCalls
      = 3 ∧
    (process_instruction ⟨some 0, []⟩ exFail (.ok "A") fxB (.ok "r") "i").2.2.execCalls
      ≠ (Config.ofEnv (some 5) none).MAX_RETRIES := by
  refine ⟨rfl, rfl, rfl, rfl, by decide⟩

/-- C8: the generation prompt's history slice is exactly the most recent
min(3, length) conversation turns in insertion order (the rest of the
history is what precedes them), and process_instruction only ever appends
to the stored history, so older turns are retained. -/
theorem C8_history_window :
    ∀ h : List Turn,
      (history_window h).length = min 3 h.length ∧
      h.take (h.length - 3) ++ history_window h = h ∧
      ∀ (st : AgentState) (ex : Nat → String → ExecutionResult)
        (gen : Except String String) (fx : String → String → String)
        (rep : Except String String) (instruction : String),
        st.conversation_history <+:
          (process_instruction st ex gen fx rep instruction).2.1.conversation_history := by
  intro h
  refine ⟨?_, ?_, ?_⟩
  · simp only [history_window, List.length_drop]
    omega
  · simp [history_window, List.take_append_drop]
  · intro st ex gen fx rep instruction
    rcases st with ⟨df, hist⟩
    cases df with
    | none => exact List.prefix_rfl
    | some d =>
      cases gen with
      | error e => exact List.prefix_rfl
      | ok raw =>
        simp only [process_instruction]
        cases hm : (if (retryRun ex fx 3 0 (extract_code raw)).result.success
            then rep else Except.ok "") with
        | error e => simp [hm]
        | ok r =>
          simp only [hm]
          exact List.prefix_append _ _

/-- C9 counterexample: the no-dataset early return carries only the success
and error keys; the code key (and the other four) are absent. -/
theorem C9_counterexample :
    getKey "code" (process_instruction ⟨none, []⟩ exOK (.ok "x") fxB (.ok "r") "i").1
      = none ∧
    getKey "success" (process_instruction ⟨none, []⟩ exOK (.ok "x") fxB (.ok "r") "i").1
      = some (Val.b false) := by
  refine ⟨rfl, rfl⟩

/-- C9 (amended): the normal path of process_instruction (dataset loaded,
generator answered, and either the execution failed or the report step did
not raise) returns all seven schema fields in order; when a successful
execution is followed by a raising report step, only success and error are
returned. -/
theorem C9_schema_keys :
    ∀ (dfRef : Nat) (hist : List Turn) (ex : Nat → String → ExecutionResult)
      (fx : String → String → String) (raw r e instruction : String),
      keysOf (process_instruction ⟨some dfRef, hist⟩ ex (.ok raw) fx (.ok r)
          instruction).1 = sevenKeys ∧
      keysOf (process_instruction ⟨some dfRef, hist⟩ ex (.ok raw) fx (.error e)
          instruction).1
        = (if (retryRun ex fx 3 0 (extract_code raw)).result.success
           then ["success", "error"] else sevenKeys) := by
  intro dfRef hist ex fx raw r e instruction
  constructor
  · simp only [process_instruction]
    cases hs : (retryRun ex fx 3 0 (extract_code raw)).result.success <;>
      simp [hs, keysOf, resultPayload, sevenKeys]
  · simp only [process_instruction]
    cases hs : (retryRun ex fx 3 0 (extract_code raw)).result.success <;>
      simp [hs, keysOf, resultPayload, agentErrorPayload, sevenKeys]

/-- Reading below the appended cell is unchanged. -/
theorem readDF_append_lt :
    ∀ (h : List (List String)) (x : List String) (r : Nat), r < h.length →
      readDF (h ++ [x]) r = readDF h r := by
  intro h
  induction h with
  | nil =>
    intro x r hr
    exact absurd hr (Nat.not_lt_zero r)
  | cons a t ih =>
    intro x r hr
    cases r with
    | zero => rfl
    | succ n =>
      have hn : n < t.length := by simpa using hr
      have := ih x n hn
      simp only [readDF] at this ⊢
      rw [List.cons_append, List.getD_cons_succ, List.getD_cons_succ]
      exact this

/-- Reading the appended cell returns the appended value. -/
theorem readDF_append_self :
    ∀ (h : List (List String)) (x : List String), readDF (h ++ [x]) h.length = x := by
  intro h x
  induction h with
  | nil => rfl
  | cons a t ih =>
    simp only [readDF] at ih ⊢
    rw [List.cons_append, List.length_cons, List.getD_cons_succ]
    exact ih

/-- A sequence of steps each preserving every reference outside the
workspace preserves those references. -/
theorem runAll_frame :
    ∀ (fs : List (List (List String) → List (List String)))
      (h : List (List String)) (ws : List Nat) (r : Nat),
      r ∉ ws →
      (∀ f ∈ fs, ∀ h' r', r' ∉ ws → readDF (f h') r' = readDF h' r') →
      readDF (runAll fs h) r = readDF h r := by
  intro fs
  induction fs with
  | nil =>
    intro h ws r _ _
    rfl
  | cons f rest ih =>
    intro h ws r hr hfs
    have h1 := hfs f (List.mem_cons_self f rest) h r hr
    have h2 := ih (f h) ws r hr (fun g hg => hfs g (List.mem_cons_of_mem f hg))
    simp only [runAll, List.foldl_cons] at h2 ⊢
    rw [h2, h1]

/-- C10: load_data seeds the workspace with a fresh copy of the caller's
dataframe (same value, distinct reference), and any sequence of executed
attempts that can only write through the workspace references leaves the
caller's original dataframe unchanged. -/
theorem C10_load_data_copy_frame :
    ∀ (h : List (List String)) (caller : Nat)
      (fs : List (List (List String) → List (List String))),
      caller < h.length →
      (∀ f ∈ fs, ∀ h' r, r ∉ (load_data h caller).2.2 →
        readDF (f h') r = readDF h' r) →
      readDF (load_data h caller).1 (load_data h caller).2.1 = readDF h caller ∧
      (load_data h caller).2.1 ≠ caller ∧
      readDF (runAll fs (load_data h caller).1) caller = readDF h caller := by
  intro h caller fs hc hfs
  refine ⟨?_, ?_, ?_⟩
  · simpa [load_data] using readDF_append_self h (readDF h caller)
  · simp only [load_data]
    omega
  · have hnot : caller ∉ (load_data h caller).2.2 := by
      simp only [load_data, List.mem_singleton]
      omega
    have hframe := runAll_frame fs (load_data h caller).1
      (load_data h caller).2.2 caller hnot hfs
    rw [hframe]
    simpa [load_data] using readDF_append_lt h (readDF h caller) caller hc

/-- Witness for C10 at a concrete two-dataframe heap with an identity step. -/
theorem C10_load_data_copy_frame_witness :
    readDF (load_data [["a"], ["b"]] 0).1 (load_data [["a"], ["b"]] 0).2.1
      = readDF [["a"], ["b"]] 0 ∧
    (load_data [["a"], ["b"]] 0).2.1 ≠ 0 ∧
    readDF (runAll [id] (load_data [["a"], ["b"]] 0).1) 0 = readDF [["a"], ["b"]] 0 :=
  C10_load_data_copy_frame [["a"], ["b"]] 0 [id] (by decide)
    (by
      intro f hf h' r hr
      have hfid : f = id := by simpa using hf
      subst hfid
      rfl)
